import Mathlib

/-
Formal model of the MPoL Fourier module (src/mpol/fourier.py).

The module defines two layers:
* FourierCube: uniform FFT layer mapping a packed real image cube of shape
  (nchan, npix, npix) to a packed complex visibility cube of the same shape,
  scaled by cell_size ** 2 (fourier.py, forward, lines 44-63), together with
  read-only ground-frame views (lines 65-94).
* NuFFTNarrow: non-uniform FFT layer mapping a packed real image cube to
  complex visibilities at arbitrary (u, v) locations via an external
  non-uniform FFT primitive (torchkbnufft.KbNufft), including unit conversion
  (_klambda_to_radpix, lines 136-156), k-trajectory assembly
  (_assemble_ktraj, lines 158-174) and the forward pipeline (lines 176-215).

Images are modelled as functions Fin nchan -> Fin npix -> Fin npix -> R,
visibility cubes as the same shape over C, machine floats as exact reals
(rationals for the construction-time configuration arguments, where
decidability is needed), and Python exceptions as an Except monad.
The external dense-FFT primitive torch.fft.fftn / ifftn is embedded by its
documented semantics: the multi-dimensional discrete Fourier transform over
the chosen axes with no normalization on the forward transform and a 1/n
normalization on the inverse.  The external non-uniform FFT primitive is kept
abstract: the NuFFT forward model is parameterized over an arbitrary function
of the batched image and the trajectory, exactly as the code treats
self.nufft_ob as a black box.
-/

open Finset

/-- Python exceptions raised (or raisable) by the modelled code: `assert`
statements raise AssertionError with a message, attribute access on an
attribute that was never set raises AttributeError.  The spec taxonomy
maps the construction-time asserts to ConfigurationError and the
dimension assert in FourierCube.forward to ShapeError; the
configurationError constructor is used by the spec-modelled GridCoords
builder. -/
inductive MpolError where
  | assertionError (msg : String)
  | attributeError (msg : String)
  | configurationError (msg : String)
deriving DecidableEq

/-- Modelled from the spec: the GridCoords data model (coordinates.py is not
under src/).  The spec (section 3) gives: cell size (arcsec per pixel) and
pixel count per side, from which the pixel angular size dl (sky radians per
pixel, referenced by the code comment in _klambda_to_radpix) is derived.
Numeric fields are rationals so that the construction-time configuration
logic stays decidable. -/
structure GridCoords where
  cell_size : ℚ
  npix : ℕ
  dl : ℚ
deriving DecidableEq

/-- Python truthiness of an optional float argument: None and 0.0 are falsy. -/
def truthyQ (o : Option ℚ) : Bool :=
  match o with
  | none => false
  | some v => decide (v ≠ 0)

/-- Python truthiness of an optional int argument: None and 0 are falsy. -/
def truthyN (o : Option ℕ) : Bool :=
  match o with
  | none => false
  | some v => decide (v ≠ 0)

/-- Modelled from the spec: the GridCoords constructor (coordinates.py is not
under src/).  Spec section 3 gives the invariant cell_size > 0 and npix > 0,
and section 7 says missing or invalid construction arguments fail fast with a
ConfigurationError.  dl is modelled as cell_size converted from arcseconds to
radians, with the rational approximation 1 radian = 206265 arcsec. -/
def gridCoords_build (cell_size : Option ℚ) (npix : Option ℕ) :
    Except MpolError GridCoords :=
  match cell_size, npix with
  | some cs, some np =>
      if 0 < cs ∧ 0 < np then
        Except.ok (GridCoords.mk cs np (cs / 206265))
      else
        Except.error (MpolError.configurationError "cell_size and npix must be positive")
  | _, _ =>
      Except.error (MpolError.configurationError "cell_size and npix must both be specified")

/-- The shared manual coordinate setup of FourierCube.__init__ (fourier.py
lines 24-42) and NuFFTNarrow.__init__ (lines 108-126):

    if coords:
        assert npix is None and cell_size is None, ...
        self.coords = coords
    elif npix or cell_size:
        assert coords is None, ...
        self.coords = GridCoords(cell_size=cell_size, npix=npix)

The result is the final value of the coords attribute: when neither branch
is taken the attribute is never assigned, modelled as none. -/
def coords_setup (cell_size : Option ℚ) (npix : Option ℕ)
    (coords : Option GridCoords) : Except MpolError (Option GridCoords) :=
  if coords.isSome then
    if npix.isNone && cell_size.isNone then
      Except.ok coords
    else
      Except.error (MpolError.assertionError
        "npix and cell_size must be empty if precomputed GridCoords are supplied.")
  else if truthyN npix || truthyQ cell_size then
    if coords.isNone then
      (gridCoords_build cell_size npix).map some
    else
      Except.error (MpolError.assertionError
        "GridCoords must be empty if npix and cell_size are supplied.")
  else
    Except.ok none

/-- FourierCube.__init__ (fourier.py lines 24-42): the constructor body is
exactly the manual coordinate setup; the result is the value of the coords
attribute after construction (none when the attribute was never set). -/
def fourierCube_init (cell_size : Option ℚ) (npix : Option ℕ)
    (coords : Option GridCoords) : Except MpolError (Option GridCoords) :=
  coords_setup cell_size npix coords

/-- The dimension assert at the top of FourierCube.forward (fourier.py
line 56): `assert cube.dim() == 3, "cube must be 3D"`, applied to the shape
of the incoming tensor. -/
def fourierCube_forward_check (cubeShape : List ℕ) : Except MpolError Unit :=
  if cubeShape.length = 3 then
    Except.ok ()
  else
    Except.error (MpolError.assertionError "cube must be 3D")

/-- The elementary twiddle factor of the discrete Fourier transform on a grid
of n points, at integer frequency-times-position product t:
exp(2 pi i t / n).  Forward transforms use it at negated exponents, inverse
transforms at positive exponents. -/
noncomputable def wexp (n : ℕ) (t : ℤ) : ℂ :=
  Complex.exp (2 * Real.pi * Complex.I * t / n)

/-- Semantics of the external primitive torch.fft.fftn with dim=(1, 2)
applied to a 3-dimensional tensor (fourier.py line 61): the unnormalized
discrete Fourier transform over the last two axes, leaving the channel axis
untouched. -/
noncomputable def fftn2 (nchan npix : ℕ)
    (x : Fin nchan → Fin npix → Fin npix → ℂ) :
    Fin nchan → Fin npix → Fin npix → ℂ :=
  fun c k l => ∑ m : Fin npix, ∑ n : Fin npix,
    x c m n * wexp npix (-(((k : ℕ) : ℤ) * ((m : ℕ) : ℤ) + ((l : ℕ) : ℤ) * ((n : ℕ) : ℤ)))

/-- Semantics of the external primitive torch.fft.ifftn with dim=(1, 2): the
inverse discrete Fourier transform over the last two axes, normalized by
1 / npix^2. -/
noncomputable def ifftn2 (nchan npix : ℕ)
    (X : Fin nchan → Fin npix → Fin npix → ℂ) :
    Fin nchan → Fin npix → Fin npix → ℂ :=
  fun c m n => ((npix : ℂ) ^ 2)⁻¹ * ∑ k : Fin npix, ∑ l : Fin npix,
    X c k l * wexp npix (((k : ℕ) : ℤ) * ((m : ℕ) : ℤ) + ((l : ℕ) : ℤ) * ((n : ℕ) : ℤ))

/-- One-dimensional unnormalized discrete Fourier transform, used to factor
the two-dimensional transform into two passes. -/
noncomputable def dft1 (npix : ℕ) (x : Fin npix → ℂ) : Fin npix → ℂ :=
  fun k => ∑ p : Fin npix, x p * wexp npix (-(((k : ℕ) : ℤ) * ((p : ℕ) : ℤ)))

/-- One-dimensional inverse discrete Fourier transform with 1 / npix
normalization. -/
noncomputable def idft1 (npix : ℕ) (X : Fin npix → ℂ) : Fin npix → ℂ :=
  fun p => (npix : ℂ)⁻¹ * ∑ k : Fin npix, X k * wexp npix (((k : ℕ) : ℤ) * ((p : ℕ) : ℤ))

/-- The two-dimensional discrete Fourier transform of one image channel, as
named by the claim about FourierCube.forward: the spec-side description
"the 2-D discrete Fourier transform of the input applied independently to
each channel". -/
noncomputable def dft2_single (npix : ℕ) (x : Fin npix → Fin npix → ℂ) :
    Fin npix → Fin npix → ℂ :=
  fun k l => ∑ m : Fin npix, ∑ n : Fin npix,
    x m n * wexp npix (-(((k : ℕ) : ℤ) * ((m : ℕ) : ℤ) + ((l : ℕ) : ℤ) * ((n : ℕ) : ℤ)))

/-- Promotion of a real image cube to complex entries, as torch.fft.fftn does
implicitly for a real input tensor. -/
def toComplexCube (nchan npix : ℕ) (cube : Fin nchan → Fin npix → Fin npix → ℝ) :
    Fin nchan → Fin npix → Fin npix → ℂ :=
  fun c m n => ((cube c m n : ℝ) : ℂ)

/-- FourierCube.forward (fourier.py lines 44-63), value part:
self.vis = self.coords.cell_size ** 2 * torch.fft.fftn(cube, dim=(1, 2)). -/
noncomputable def fourierCube_forward (nchan npix : ℕ) (coords : GridCoords)
    (cube : Fin nchan → Fin npix → Fin npix → ℝ) :
    Fin nchan → Fin npix → Fin npix → ℂ :=
  fun c k l => ((coords.cell_size : ℂ)) ^ 2 * fftn2 nchan npix (toComplexCube nchan npix cube) c k l

/-- The attribute state of a FourierCube layer: the shared GridCoords object
and the vis attribute written by forward. -/
structure FourierCubeState (nchan npix : ℕ) where
  coords : GridCoords
  vis : Fin nchan → Fin npix → Fin npix → ℂ

/-- FourierCube.forward as a state transformer on the layer: it writes the
vis attribute and returns the same cube (fourier.py lines 61-63). -/
noncomputable def fourierCube_forward_run (nchan npix : ℕ)
    (st : FourierCubeState nchan npix) (cube : Fin nchan → Fin npix → Fin npix → ℝ) :
    FourierCubeState nchan npix × (Fin nchan → Fin npix → Fin npix → ℂ) :=
  (FourierCubeState.mk st.coords (fourierCube_forward nchan npix st.coords cube),
   fourierCube_forward nchan npix st.coords cube)

/-- The index permutation of torch.fft.fftshift on one axis of length n: a
roll by n / 2, so position i reads from position (i - n / 2) mod n. -/
def shiftIdx (n : ℕ) (i : Fin n) : Fin n :=
  ⟨((i : ℕ) + (n - n / 2)) % n, by
    have h := i.isLt
    exact Nat.mod_lt _ (by omega)⟩

/-- torch.fft.fftshift applied to the two axes of a square array, as in
fourier.py line 201 (dim=(1, 2) acting on each channel slice). -/
def fftshift2 {α : Type} (npix : ℕ) (x : Fin npix → Fin npix → α) :
    Fin npix → Fin npix → α :=
  fun i j => x (shiftIdx npix i) (shiftIdx npix j)

/-- Modelled from the spec: utils.packed_cube_to_ground_cube (utils.py is not
under src/), used by the FourierCube.ground_vis property (fourier.py line 74).
Per the spec, the ground-frame view re-centers the zero-frequency component
to the middle of each channel slice, which is the fftshift of the packed cube
over its two spatial axes. -/
def packed_cube_to_ground_cube (nchan npix : ℕ)
    (x : Fin nchan → Fin npix → Fin npix → ℂ) :
    Fin nchan → Fin npix → Fin npix → ℂ :=
  fun c => fftshift2 npix (x c)

/-- The FourierCube.ground_vis property (fourier.py lines 65-74): returns the
ground-format cube derived from the stored vis attribute, leaving the layer
state untouched. -/
def ground_vis_acc (nchan npix : ℕ) (st : FourierCubeState nchan npix) :
    (Fin nchan → Fin npix → Fin npix → ℂ) × FourierCubeState nchan npix :=
  (packed_cube_to_ground_cube nchan npix st.vis, st)

/-- The FourierCube.ground_amp property (fourier.py lines 76-84):
torch.abs(self.ground_vis), leaving the layer state untouched. -/
noncomputable def ground_amp_acc (nchan npix : ℕ) (st : FourierCubeState nchan npix) :
    (Fin nchan → Fin npix → Fin npix → ℝ) × FourierCubeState nchan npix :=
  ((fun c i j => Complex.abs ((ground_vis_acc nchan npix st).1 c i j)), st)

/-- The FourierCube.ground_phase property (fourier.py lines 86-94):
torch.angle(self.ground_vis), leaving the layer state untouched. -/
noncomputable def ground_phase_acc (nchan npix : ℕ) (st : FourierCubeState nchan npix) :
    (Fin nchan → Fin npix → Fin npix → ℝ) × FourierCubeState nchan npix :=
  ((fun c i j => Complex.arg ((ground_vis_acc nchan npix st).1 c i j)), st)

/-- NuFFTNarrow._klambda_to_radpix (fourier.py lines 136-156):

    u_lam = klambda * 1e3
    u_rad_per_rad = u_lam * 2 * np.pi
    u_rad_per_pix = u_rad_per_rad * self.coords.dl
-/
noncomputable def klambda_to_radpix (coords : GridCoords) (klambda : ℝ) : ℝ :=
  let u_lam := klambda * 1000
  let u_rad_per_rad := u_lam * 2 * Real.pi
  let u_rad_per_pix := u_rad_per_rad * (coords.dl : ℝ)
  u_rad_per_pix

/-- NuFFTNarrow._assemble_ktraj (fourier.py lines 158-174): convert both
coordinate sequences and stack them as torch.tensor([vv_radpix, uu_radpix]),
row 0 holding v and row 1 holding u. -/
noncomputable def assemble_ktraj (nvis : ℕ) (coords : GridCoords)
    (uu vv : Fin nvis → ℝ) : Fin 2 → Fin nvis → ℝ :=
  ![fun i => klambda_to_radpix coords (vv i), fun i => klambda_to_radpix coords (uu i)]

/-- The attribute state of a NuFFTNarrow layer: the shared GridCoords object
and the optionally cached k_traj attribute (set by __init__ only when both uu
and vv were supplied, fourier.py lines 133-134). -/
structure NuFFTState (nvis : ℕ) where
  coords : GridCoords
  k_traj : Option (Fin 2 → Fin nvis → ℝ)

/-- NuFFTNarrow.__init__ (fourier.py lines 108-134): the manual coordinate
setup shared with FourierCube, then initialization of the nufft object (which
reads self.coords.npix and therefore raises AttributeError when the coords
attribute was never set), then caching of the k-trajectory when both uu and
vv are supplied. -/
noncomputable def nufftNarrow_init (nvis : ℕ) (cell_size : Option ℚ)
    (npix : Option ℕ) (coords : Option GridCoords)
    (uu vv : Option (Fin nvis → ℝ)) : Except MpolError (NuFFTState nvis) :=
  match coords_setup cell_size npix coords with
  | Except.error e => Except.error e
  | Except.ok none =>
      Except.error (MpolError.attributeError "NuFFTNarrow object has no attribute coords")
  | Except.ok (some c) =>
      match uu, vv with
      | some u, some v => Except.ok (NuFFTState.mk c (some (assemble_ktraj nvis c u v)))
      | _, _ => Except.ok (NuFFTState.mk c none)

/-- The trajectory selection at the top of NuFFTNarrow.forward (fourier.py
lines 195-198):

    if (uu is not None) and (vv is not None):
        k_traj = self._assemble_ktraj(uu, vv)
    else:
        k_traj = self.k_traj

Reading self.k_traj when it was never cached raises AttributeError, modelled
as the error case. -/
noncomputable def nufft_select_ktraj (nvis : ℕ) (st : NuFFTState nvis)
    (uu vv : Option (Fin nvis → ℝ)) : Except MpolError (Fin 2 → Fin nvis → ℝ) :=
  match uu, vv with
  | some u, some v => Except.ok (assemble_ktraj nvis st.coords u v)
  | _, _ =>
      match st.k_traj with
      | some t => Except.ok t
      | none => Except.error (MpolError.attributeError "NuFFTNarrow object has no attribute k_traj")

/-- NuFFTNarrow.forward (fourier.py lines 176-215), parameterized over the
external non-uniform FFT primitive nufft_ob (a black box mapping a batched
complex image tensor and a 2-row trajectory to batched per-channel samples):

    shifted = torch.fft.fftshift(cube, dim=(1, 2))
    complexed = shifted.type(torch.complex128)
    expanded = complexed.unsqueeze(0)
    output = self.coords.cell_size ** 2 * self.nufft_ob(expanded, k_traj)
    return output[0]
-/
noncomputable def nufftNarrow_forward (nchan npix nvis : ℕ)
    (nufft_ob : (Fin 1 → Fin nchan → Fin npix → Fin npix → ℂ) →
      (Fin 2 → Fin nvis → ℝ) → Fin 1 → Fin nchan → Fin nvis → ℂ)
    (st : NuFFTState nvis) (cube : Fin nchan → Fin npix → Fin npix → ℝ)
    (uu vv : Option (Fin nvis → ℝ)) : Except MpolError (Fin nchan → Fin nvis → ℂ) :=
  match nufft_select_ktraj nvis st uu vv with
  | Except.error e => Except.error e
  | Except.ok k_traj =>
      let shifted := fun c => fftshift2 npix (cube c)
      let complexed := fun c i j => ((shifted c i j : ℝ) : ℂ)
      let expanded : Fin 1 → Fin nchan → Fin npix → Fin npix → ℂ := fun _ => complexed
      let output := fun b c j => ((st.coords.cell_size : ℂ)) ^ 2 * nufft_ob expanded k_traj b c j
      Except.ok (fun c j => output 0 c j)

lemma two_pi_I_ne_zero : (2 : ℂ) * Real.pi * Complex.I ≠ 0 := by
  simp [mul_eq_zero, Complex.ofReal_eq_zero, Real.pi_ne_zero, Complex.I_ne_zero]

lemma wexp_add (n : ℕ) (a b : ℤ) : wexp n (a + b) = wexp n a * wexp n b := by
  unfold wexp
  rw [← Complex.exp_add]
  congr 1
  push_cast
  ring

lemma wexp_pow (n : ℕ) (d : ℤ) (j : ℕ) : wexp n d ^ j = wexp n (j * d) := by
  unfold wexp
  rw [← Complex.exp_nat_mul]
  congr 1
  push_cast
  ring

lemma wexp_eq_one_iff (n : ℕ) (hn : 0 < n) (d : ℤ) :
    wexp n d = 1 ↔ (n : ℤ) ∣ d := by
  have hnne : (n : ℂ) ≠ 0 := Nat.cast_ne_zero.mpr hn.ne'
  unfold wexp
  rw [Complex.exp_eq_one_iff]
  constructor
  · rintro ⟨m, hm⟩
    have hc : (2 : ℂ) * Real.pi * Complex.I * d = 2 * Real.pi * Complex.I * (m * n) := by
      field_simp at hm
      linear_combination hm
    have hd : (d : ℂ) = (m : ℂ) * (n : ℂ) := mul_left_cancel₀ two_pi_I_ne_zero hc
    have hdz : d = m * n := by exact_mod_cast hd
    exact ⟨m, by rw [hdz, mul_comm]⟩
  · rintro ⟨c, rfl⟩
    refine ⟨c, ?_⟩
    field_simp
    ring

lemma wexp_pow_card (n : ℕ) (hn : 0 < n) (d : ℤ) : wexp n d ^ n = 1 := by
  rw [wexp_pow]
  exact (wexp_eq_one_iff n hn _).mpr ⟨d, by ring⟩

lemma sum_wexp (n : ℕ) (hn : 0 < n) (d : ℤ) :
    ∑ j : Fin n, wexp n (((j : ℕ) : ℤ) * d) = if (n : ℤ) ∣ d then (n : ℂ) else 0 := by
  have hrw : ∀ j : Fin n, wexp n (((j : ℕ) : ℤ) * d) = wexp n d ^ (j : ℕ) :=
    fun j => (wexp_pow n d (j : ℕ)).symm
  simp_rw [hrw]
  rw [Fin.sum_univ_eq_sum_range (fun i => wexp n d ^ i) n]
  by_cases h : (n : ℤ) ∣ d
  · rw [if_pos h, (wexp_eq_one_iff n hn d).mpr h]
    simp
  · rw [if_neg h]
    have h1 : wexp n d ≠ 1 := fun hc => h ((wexp_eq_one_iff n hn d).mp hc)
    rw [geom_sum_eq h1, wexp_pow_card n hn d]
    simp

lemma sum_wexp_fin (n : ℕ) (hn : 0 < n) (m p : Fin n) :
    ∑ k : Fin n, wexp n (-(((k : ℕ) : ℤ) * ((p : ℕ) : ℤ)) + ((k : ℕ) : ℤ) * ((m : ℕ) : ℤ))
      = if p = m then (n : ℂ) else 0 := by
  have hexp : ∀ k : Fin n,
      (-(((k : ℕ) : ℤ) * ((p : ℕ) : ℤ)) + ((k : ℕ) : ℤ) * ((m : ℕ) : ℤ))
        = ((k : ℕ) : ℤ) * (((m : ℕ) : ℤ) - ((p : ℕ) : ℤ)) := fun k => by ring
  simp_rw [hexp]
  rw [sum_wexp n hn]
  by_cases h : p = m
  · subst h
    simp
  · rw [if_neg ?_, if_neg h]
    intro hdvd
    have hm := m.isLt
    have hp := p.isLt
    have hz : ((m : ℕ) : ℤ) - ((p : ℕ) : ℤ) = 0 := by
      refine Int.eq_zero_of_abs_lt_dvd hdvd ?_
      rw [abs_lt]
      omega
    exact h (Fin.ext (by omega))

lemma idft1_dft1 (n : ℕ) (hn : 0 < n) (x : Fin n → ℂ) : idft1 n (dft1 n x) = x := by
  have hnne : (n : ℂ) ≠ 0 := Nat.cast_ne_zero.mpr hn.ne'
  funext m
  unfold idft1 dft1
  simp_rw [Finset.sum_mul]
  rw [Finset.sum_comm]
  simp_rw [mul_assoc, ← wexp_add, ← Finset.mul_sum, sum_wexp_fin n hn m, mul_ite, mul_zero]
  rw [Fintype.sum_ite_eq' m (fun p => x p * (n : ℂ))]
  rw [mul_comm (x m) ((n : ℂ)), ← mul_assoc, inv_mul_cancel₀ hnne, one_mul]

lemma fftn2_nested (nchan npix : ℕ) (x : Fin nchan → Fin npix → Fin npix → ℂ)
    (c : Fin nchan) (k l : Fin npix) :
    fftn2 nchan npix x c k l = dft1 npix (fun p => dft1 npix (x c p) l) k := by
  unfold fftn2 dft1
  simp_rw [Finset.sum_mul, mul_assoc, ← wexp_add]
  refine Finset.sum_congr rfl fun p _ => Finset.sum_congr rfl fun q _ => ?_
  congr 2
  ring

lemma ifftn2_nested (nchan npix : ℕ) (X : Fin nchan → Fin npix → Fin npix → ℂ)
    (c : Fin nchan) (m n : Fin npix) :
    ifftn2 nchan npix X c m n
      = idft1 npix (fun l => idft1 npix (fun k => X c k l) m) n := by
  unfold ifftn2 idft1
  simp_rw [mul_assoc, ← Finset.mul_sum, Finset.sum_mul, mul_assoc, ← wexp_add]
  rw [Finset.sum_comm, sq, mul_inv, mul_assoc]

lemma ifftn2_fftn2 (nchan npix : ℕ) (hnp : 0 < npix)
    (x : Fin nchan → Fin npix → Fin npix → ℂ) :
    ifftn2 nchan npix (fftn2 nchan npix x) = x := by
  funext c m n
  rw [ifftn2_nested]
  have h1 : (fun l => idft1 npix (fun k => fftn2 nchan npix x c k l) m)
      = fun l => dft1 npix (x c m) l := by
    funext l
    have h2 : (fun k => fftn2 nchan npix x c k l)
        = dft1 npix (fun p => dft1 npix (x c p) l) := by
      funext k
      exact fftn2_nested nchan npix x c k l
    rw [h2, idft1_dft1 npix hnp]
  rw [h1]
  exact congrFun (idft1_dft1 npix hnp (x c m)) n

/-- Claim C1: for every 3-dimensional real image cube of shape
(nchan, npix, npix), FourierCube.forward returns a complex cube of the same
shape (enforced by the result type) equal to cell_size squared times the 2-D
discrete Fourier transform of the input applied independently to each channel
over the last two axes, in packed layout. -/
theorem C1_fourierCube_forward_scaled_per_channel_dft (nchan npix : ℕ)
    (coords : GridCoords) (cube : Fin nchan → Fin npix → Fin npix → ℝ)
    (c : Fin nchan) (k l : Fin npix) :
    fourierCube_forward nchan npix coords cube c k l
      = ((coords.cell_size : ℂ)) ^ 2
          * dft2_single npix (fun m n => ((cube c m n : ℝ) : ℂ)) k l := rfl

/-- Claim C2: for every pair of (u, v) coordinate sequences in kilolambda,
NuFFTNarrow._assemble_ktraj returns a 2-row trajectory whose first row holds
the converted v coordinates and whose second row the converted u coordinates,
each converted to radians per pixel by multiplying by 1000, then by 2 pi,
then by the pixel angular size dl of the grid. -/
theorem C2_assemble_ktraj_rows (nvis : ℕ) (coords : GridCoords)
    (uu vv : Fin nvis → ℝ) (i : Fin nvis) :
    assemble_ktraj nvis coords uu vv 0 i
        = vv i * 1000 * (2 * Real.pi) * (coords.dl : ℝ)
      ∧ assemble_ktraj nvis coords uu vv 1 i
        = uu i * 1000 * (2 * Real.pi) * (coords.dl : ℝ) := by
  constructor <;>
    simp only [assemble_ktraj, klambda_to_radpix, Matrix.cons_val_zero,
      Matrix.cons_val_one, Matrix.head_cons] <;>
    ring

/-- Claim C3: for every packed real image cube and trajectory of nvis (u, v)
samples supplied at call time, NuFFTNarrow.forward returns the complex
(nchan, nvis) tensor obtained by fftshifting the cube over its two spatial
axes, promoting it to complex precision, adding a batch dimension, evaluating
the external non-uniform FFT primitive at the assembled trajectory, scaling
by cell_size squared, and removing the batch dimension. -/
theorem C3_nufft_forward_pipeline (nchan npix nvis : ℕ)
    (nufft_ob : (Fin 1 → Fin nchan → Fin npix → Fin npix → ℂ) →
      (Fin 2 → Fin nvis → ℝ) → Fin 1 → Fin nchan → Fin nvis → ℂ)
    (st : NuFFTState nvis) (cube : Fin nchan → Fin npix → Fin npix → ℝ)
    (uu vv : Fin nvis → ℝ) :
    nufftNarrow_forward nchan npix nvis nufft_ob st cube (some uu) (some vv)
      = Except.ok (fun c j => ((st.coords.cell_size : ℂ)) ^ 2 *
          nufft_ob (fun _ c2 i j2 => ((fftshift2 npix (cube c2) i j2 : ℝ) : ℂ))
            (assemble_ktraj nvis st.coords uu vv) 0 c j) := rfl

/-- Claim C4, counterexample: supplying neither a GridCoords object nor the
(cell_size, npix) pair to FourierCube does NOT fail fast at construction
time; the constructor falls through both branches and returns successfully
with the coords attribute never set. -/
theorem C4_counterexample_no_args_construct_succeeds :
    fourierCube_init none none none = Except.ok none := rfl

/-- Claim C4, amended: supplying both a GridCoords object and the
(cell_size, npix) pair fails with an assertion error (the
ConfigurationError of the spec taxonomy) for both layers; supplying exactly
one of the two succeeds; but supplying neither does not fail FourierCube
construction (the object is silently left without grid coordinates), while
NuFFTNarrow construction fails only with an AttributeError when the nufft
object initialization reads the missing coords attribute. -/
theorem C4_amended_construction_cases (cs : ℚ) (np : ℕ) (g : GridCoords)
    (hcs : 0 < cs) (hnp : 0 < np) :
    fourierCube_init (some cs) (some np) (some g)
        = Except.error (MpolError.assertionError
            "npix and cell_size must be empty if precomputed GridCoords are supplied.")
      ∧ fourierCube_init none none (some g) = Except.ok (some g)
      ∧ fourierCube_init (some cs) (some np) none
        = Except.ok (some (GridCoords.mk cs np (cs / 206265)))
      ∧ fourierCube_init none none none = Except.ok none
      ∧ (∀ nvis : ℕ, nufftNarrow_init nvis none none none none none
          = Except.error (MpolError.attributeError
              "NuFFTNarrow object has no attribute coords"))
      ∧ (∀ nvis : ℕ, nufftNarrow_init nvis (some cs) (some np) (some g) none none
          = Except.error (MpolError.assertionError
              "npix and cell_size must be empty if precomputed GridCoords are supplied.")) := by
  have h1 : truthyN (some np) = true := by simp [truthyN, hnp.ne']
  refine ⟨rfl, rfl, ?_, rfl, fun nvis => rfl, fun nvis => ?_⟩
  · show coords_setup (some cs) (some np) none = _
    simp [coords_setup, h1, gridCoords_build, hcs, hnp, Except.map]
  · show (match coords_setup (some cs) (some np) (some g) with
      | Except.error e => Except.error e
      | Except.ok none => Except.error (MpolError.attributeError
          "NuFFTNarrow object has no attribute coords")
      | Except.ok (some c) => Except.ok (NuFFTState.mk c none)) = _
    rfl

/-- Witness for the amended claim C4 at a concrete positive configuration. -/
theorem C4_amended_construction_cases_witness :
    (0 : ℚ) < 1 ∧ (0 : ℕ) < 4 ∧
      fourierCube_init (some 1) (some 4) none
        = Except.ok (some (GridCoords.mk 1 4 (1 / 206265))) :=
  ⟨by decide, by decide,
    (C4_amended_construction_cases 1 4 (GridCoords.mk 1 4 (1 / 206265))
      (by decide) (by decide)).2.2.1⟩

/-- Claim C5: FourierCube.forward fails with the dimension assertion (the
ShapeError of the spec taxonomy) exactly on those input tensors whose number
of dimensions is not 3; on every exactly 3-dimensional input this error is
not raised. -/
theorem C5_forward_shape_assert (shape : List ℕ) :
    fourierCube_forward_check shape
        = Except.error (MpolError.assertionError "cube must be 3D")
      ↔ shape.length ≠ 3 := by
  unfold fourierCube_forward_check
  by_cases h : shape.length = 3
  · simp [h]
  · simp [h]

/-- Claim C6: on an instance whose construction cached a trajectory, a
forward call supplying both uu and vv uses the trajectory assembled from the
supplied coordinates — the selection does not depend on the cached
trajectory at all — while a call supplying neither uses the cached
trajectory. -/
theorem C6_call_time_uv_overrides_cache (nvis : ℕ) (c : GridCoords)
    (t t2 : Fin 2 → Fin nvis → ℝ) (uu vv : Fin nvis → ℝ) :
    nufft_select_ktraj nvis (NuFFTState.mk c (some t)) (some uu) (some vv)
        = Except.ok (assemble_ktraj nvis c uu vv)
      ∧ nufft_select_ktraj nvis (NuFFTState.mk c (some t)) (some uu) (some vv)
        = nufft_select_ktraj nvis (NuFFTState.mk c (some t2)) (some uu) (some vv)
      ∧ nufft_select_ktraj nvis (NuFFTState.mk c (some t)) none none = Except.ok t :=
  ⟨rfl, rfl, rfl⟩

/-- Claim C7: applying FourierCube.forward and then the inverse discrete
Fourier transform with the inverse of the cell_size squared scaling
reproduces the original cube exactly (the uniform Fourier layer composed
with its inverse is the identity on valid image cubes). -/
theorem C7_fourier_roundtrip (nchan npix : ℕ) (hnp : 0 < npix)
    (coords : GridCoords) (hcs : coords.cell_size ≠ 0)
    (cube : Fin nchan → Fin npix → Fin npix → ℝ) :
    ifftn2 nchan npix (fun c k l => (((coords.cell_size : ℂ)) ^ 2)⁻¹
        * fourierCube_forward nchan npix coords cube c k l)
      = toComplexCube nchan npix cube := by
  have hc : ((coords.cell_size : ℂ)) ≠ 0 := by exact_mod_cast hcs
  have key : (fun c k l => (((coords.cell_size : ℂ)) ^ 2)⁻¹
        * fourierCube_forward nchan npix coords cube c k l)
      = fftn2 nchan npix (toComplexCube nchan npix cube) := by
    funext c k l
    unfold fourierCube_forward
    rw [inv_mul_cancel_left₀ (pow_ne_zero 2 hc)]
  rw [key, ifftn2_fftn2 nchan npix hnp]

/-- Witness for claim C7 at a concrete cube. -/
theorem C7_fourier_roundtrip_witness :
    (0 : ℕ) < 1 ∧ (GridCoords.mk 1 1 0).cell_size ≠ 0 ∧
      ifftn2 1 1 (fun c k l => ((((GridCoords.mk 1 1 0).cell_size : ℂ)) ^ 2)⁻¹
          * fourierCube_forward 1 1 (GridCoords.mk 1 1 0) (fun _ _ _ => 0) c k l)
        = toComplexCube 1 1 (fun _ _ _ => 0) :=
  ⟨by decide, by decide,
    C7_fourier_roundtrip 1 1 (by decide) (GridCoords.mk 1 1 0) (by decide)
      (fun _ _ _ => 0)⟩

/-- Claim C8: after a FourierCube.forward call, the ground_vis view equals
the stored packed visibility cube re-centered so that the zero-frequency
component sits at the middle index of each spatial axis, ground_amp equals
its elementwise magnitude, ground_phase its elementwise phase angle, and
none of the three views modifies the layer state.  Stated for every positive
grid side npix0 + 1. -/
theorem C8_ground_views (nchan npix0 : ℕ)
    (st0 : FourierCubeState nchan (npix0 + 1))
    (cube : Fin nchan → Fin (npix0 + 1) → Fin (npix0 + 1) → ℝ) :
    let st := (fourierCube_forward_run nchan (npix0 + 1) st0 cube).1
    ((ground_vis_acc nchan (npix0 + 1) st).1
        = packed_cube_to_ground_cube nchan (npix0 + 1) st.vis)
      ∧ (∀ c : Fin nchan,
          (ground_vis_acc nchan (npix0 + 1) st).1 c
              ⟨(npix0 + 1) / 2, by omega⟩ ⟨(npix0 + 1) / 2, by omega⟩
            = st.vis c 0 0)
      ∧ ((ground_amp_acc nchan (npix0 + 1) st).1
          = fun c i j => Complex.abs ((ground_vis_acc nchan (npix0 + 1) st).1 c i j))
      ∧ ((ground_phase_acc nchan (npix0 + 1) st).1
          = fun c i j => Complex.arg ((ground_vis_acc nchan (npix0 + 1) st).1 c i j))
      ∧ ((ground_vis_acc nchan (npix0 + 1) st).2 = st)
      ∧ ((ground_amp_acc nchan (npix0 + 1) st).2 = st)
      ∧ ((ground_phase_acc nchan (npix0 + 1) st).2 = st) := by
  intro st
  have hmid : shiftIdx (npix0 + 1) ⟨(npix0 + 1) / 2, by omega⟩ = (0 : Fin (npix0 + 1)) := by
    apply Fin.ext
    show ((npix0 + 1) / 2 + ((npix0 + 1) - (npix0 + 1) / 2)) % (npix0 + 1) = 0
    have h1 : (npix0 + 1) / 2 + ((npix0 + 1) - (npix0 + 1) / 2) = npix0 + 1 := by omega
    rw [h1, Nat.mod_self]
  refine ⟨rfl, ?_, rfl, rfl, rfl, rfl, rfl⟩
  intro c
  show st.vis c (shiftIdx (npix0 + 1) ⟨(npix0 + 1) / 2, by omega⟩)
      (shiftIdx (npix0 + 1) ⟨(npix0 + 1) / 2, by omega⟩) = st.vis c 0 0
  rw [hmid]

/-- Claim C9: a FourierCube.forward call leaves the shared GridCoords object
untouched and writes only the vis attribute, which it sets to the returned
cube. -/
theorem C9_forward_preserves_coords (nchan npix : ℕ)
    (st : FourierCubeState nchan npix) (cube : Fin nchan → Fin npix → Fin npix → ℝ) :
    (fourierCube_forward_run nchan npix st cube).1.coords = st.coords
      ∧ (fourierCube_forward_run nchan npix st cube).1.vis
        = fourierCube_forward nchan npix st.coords cube
      ∧ (fourierCube_forward_run nchan npix st cube).2
        = fourierCube_forward nchan npix st.coords cube :=
  ⟨rfl, rfl, rfl⟩

/-- Claim C10: on an instance with a cached trajectory, a forward call that
supplies exactly one of uu or vv silently ignores the supplied coordinate
array and selects the construction-time cached trajectory, raising no
error. -/
theorem C10_partial_uv_ignored (nvis : ℕ) (c : GridCoords)
    (t : Fin 2 → Fin nvis → ℝ) (uu vv : Fin nvis → ℝ) :
    nufft_select_ktraj nvis (NuFFTState.mk c (some t)) (some uu) none = Except.ok t
      ∧ nufft_select_ktraj nvis (NuFFTState.mk c (some t)) none (some vv) = Except.ok t :=
  ⟨rfl, rfl⟩
